import Mathlib

/-!
Verification of the pass-through (bytes) deserializer of the format-decoding
layer, from `lib/codecs/src/decoding/format/bytes.rs`.

The deserializer itself (`BytesDeserializerConfig`, `BytesDeserializer`, the
`Deserializer::parse` implementation) is embedded from the source.  The
external collaborators it touches (`LogEvent`, `LogNamespace`,
`schema::Definition`, `parse_value_path`, the global `log_schema()`) live in
other crates of the repository and are modelled from the spec, each marked in
its doc comment.
-/

namespace VectorCodecs

/-- A raw byte buffer, as received from an upstream source.  Embeds the
`Bytes` payload type; each element is one byte. -/
abbrev Bytes := List Nat

/-- The event-layout namespace selector, from `vector_core::config::LogNamespace`.
The source's `Vector` variant is what the spec calls the "Modern" namespace. -/
inductive LogNamespace where
  | Legacy
  | Vector
deriving DecidableEq, Repr

/-- Modelled from the spec: the language-neutral value stored in an event
(the external `value` crate).  This layer only ever stores opaque byte
strings, either at the event root or in named top-level fields, so the model
carries exactly those two shapes. -/
inductive Value where
  | bytes (b : Bytes)
  | object (fields : List (String × Bytes))
deriving DecidableEq, Repr

/-- Modelled from the spec: the base type ("kind") a schema declaration
assigns to a value; `schema::Kind` of the external `value` crate restricted
to the kinds this layer mentions. -/
inductive Kind where
  | bytes
  | object
deriving DecidableEq, Repr

/-- The base type of a concrete value. -/
def Value.kind : Value → Kind
  | Value.bytes _ => Kind.bytes
  | Value.object _ => Kind.object

/-- Modelled from the spec: the external `LogEvent` entity, reduced to the
operations this layer needs: root-value assignment, field insertion and field
lookup. -/
structure LogEvent where
  value : Value
deriving DecidableEq, Repr

/-- Modelled from the spec: `LogEvent::default()`, the new empty event used as
the Legacy baseline — an object with no fields. -/
def LogEvent.empty : LogEvent :=
  ⟨Value.object []⟩

/-- Insertion into an association list of top-level fields: replace the value
when the key is present, append otherwise. -/
def insertField : List (String × Bytes) → String → Bytes → List (String × Bytes)
  | [], key, b => [(key, b)]
  | (k, v) :: rest, key, b =>
      if k = key then (key, b) :: rest else (k, v) :: insertField rest key b

/-- Modelled from the spec: `LogEvent::insert`, placing a byte value at the
given top-level field path. -/
def LogEvent.insert (log : LogEvent) (key : String) (b : Bytes) : LogEvent :=
  match log.value with
  | Value.bytes _ => ⟨Value.object [(key, b)]⟩
  | Value.object fields => ⟨Value.object (insertField fields key b)⟩

/-- Field lookup on an event: the byte value stored at a top-level field path,
if any.  An event whose root is a plain byte string has no named fields. -/
def LogEvent.get (log : LogEvent) (key : String) : Option Bytes :=
  match log.value with
  | Value.bytes _ => none
  | Value.object fields => fields.lookup key

/-- Modelled from the spec: `LogNamespace::new_log_from_data`, the Modern
(`Vector`) namespace's own construction rule — a new event whose root value
is the decoded data; per-namespace default metadata is the namespace's own
responsibility and lives outside the event value shape. -/
def LogNamespace.new_log_from_data (_ns : LogNamespace) (b : Bytes) : LogEvent :=
  ⟨Value.bytes b⟩

/-- Modelled from the spec: the process-wide log-schema configuration
(`vector_core::config::log_schema()`), of which this layer reads only the
message key. -/
structure GlobalLogSchema where
  message_key : String
deriving DecidableEq, Repr

/-- Modelled from the spec: the well-known default global log schema, whose
message key is the "message" path. -/
def log_schema : GlobalLogSchema :=
  ⟨"message"⟩

/-- Modelled from the spec: a parsed value path of the external `lookup`
crate. -/
structure ValuePath where
  path : String
deriving DecidableEq, Repr

/-- Modelled from the spec: `lookup::lookup_v2::parse_value_path`, which turns
a configured key into a value path and fails on a key that is not a valid
path (modelled as the empty key). -/
def parse_value_path (s : String) : Option ValuePath :=
  if s.isEmpty then none else some ⟨s⟩

/-- Modelled from the spec: `lookup::OwnedTargetPath` restricted to the one
target this layer uses, the event root, next to paths into the event. -/
inductive OwnedTargetPath where
  | event_root
  | event (p : ValuePath)
deriving DecidableEq, Repr

/-- Modelled from the spec: `schema::Definition` — a declarative description
of the shape of produced events: the base type of the event root, the typed
and meaning-tagged declared fields, the namespaces whose default metadata
applies, and an optional semantic meaning on the root. -/
structure Definition where
  event_kind : Kind
  fields : List (ValuePath × Kind × Option String)
  metadata_namespaces : List LogNamespace
  root_meaning : Option String
deriving DecidableEq, Repr

/-- Modelled from the spec: `schema::Definition::empty_legacy_namespace()`,
the empty Legacy schema — an object-shaped event with no declared fields. -/
def Definition.empty_legacy_namespace : Definition :=
  ⟨Kind.object, [], [LogNamespace.Legacy], none⟩

/-- Modelled from the spec: `Definition::with_event_field`, declaring one more
event field with its base type and optional semantic meaning. -/
def Definition.with_event_field (d : Definition) (p : ValuePath) (k : Kind)
    (meaning : Option String) : Definition :=
  { d with fields := d.fields ++ [(p, k, meaning)] }

/-- Modelled from the spec: `Definition::new_with_default_metadata`, a
definition whose whole-event root has the given kind with the default
metadata of the given namespaces. -/
def Definition.new_with_default_metadata (k : Kind) (nss : List LogNamespace) :
    Definition :=
  ⟨k, [], nss, none⟩

/-- Modelled from the spec: `Definition::with_meaning`, attaching a semantic
meaning at a target path (only the event root is targeted by this layer). -/
def Definition.with_meaning (d : Definition) (target : OwnedTargetPath)
    (meaning : String) : Definition :=
  match target with
  | OwnedTargetPath.event_root => { d with root_meaning := some meaning }
  | OwnedTargetPath.event p =>
      { d with fields := d.fields.map fun f =>
          if f.1 = p then (f.1, f.2.1, some meaning) else f }

/-- The high-level event category a decoder declares, from
`vector_core::config::DataType`. -/
inductive DataType where
  | Log
  | Metric
  | Trace
deriving DecidableEq, Repr

/-- Embeds `BytesDeserializerConfig`: a unit config with zero required
fields. -/
structure BytesDeserializerConfig where
deriving DecidableEq, Repr

/-- Embeds `BytesDeserializerConfig::output_type`: always `DataType::Log`. -/
def BytesDeserializerConfig.output_type (_ : BytesDeserializerConfig) :
    DataType :=
  DataType.Log

/-- Embeds `BytesDeserializerConfig::schema_definition`.  The global
`log_schema()` read is passed explicitly.  The `.expect("valid message key")`
panic branch is embedded as `none`. -/
def BytesDeserializerConfig.schema_definition (_ : BytesDeserializerConfig)
    (ls : GlobalLogSchema) (log_namespace : LogNamespace) : Option Definition :=
  match log_namespace with
  | LogNamespace.Legacy =>
      match parse_value_path ls.message_key with
      | some p =>
          some (Definition.empty_legacy_namespace.with_event_field p Kind.bytes
            (some "message"))
      | none => none
  | LogNamespace.Vector =>
      some ((Definition.new_with_default_metadata Kind.bytes
        [LogNamespace.Vector]).with_meaning OwnedTargetPath.event_root
        "message")

/-- Embeds `BytesDeserializer`: the live decoder, holding the message key
cached at construction (only used with the Legacy namespace). -/
structure BytesDeserializer where
  log_schema_message_key : String
deriving DecidableEq, Repr

/-- Embeds `BytesDeserializer::new`: resolve the message key from the global
log schema once and cache it.  The global read is passed explicitly. -/
def BytesDeserializer.new (ls : GlobalLogSchema) : BytesDeserializer :=
  ⟨ls.message_key⟩

/-- Embeds `BytesDeserializerConfig::build`. -/
def BytesDeserializerConfig.build (_ : BytesDeserializerConfig)
    (ls : GlobalLogSchema) : BytesDeserializer :=
  BytesDeserializer.new ls

/-- Embeds `BytesDeserializer::parse_single`: Modern (`Vector`) payloads
become the root value via the namespace's own rule; Legacy payloads are
inserted into a fresh empty event at the cached message key. -/
def BytesDeserializer.parse_single (d : BytesDeserializer) (bytes : Bytes)
    (log_namespace : LogNamespace) : LogEvent :=
  match log_namespace with
  | LogNamespace.Vector => log_namespace.new_log_from_data bytes
  | LogNamespace.Legacy => LogEvent.empty.insert d.log_schema_message_key bytes

/-- Embeds the `Event` wrapper: this decoder only ever produces log events. -/
inductive Event where
  | log (e : LogEvent)
deriving DecidableEq, Repr

/-- Embeds `Deserializer::parse` for `BytesDeserializer`: wrap the single
event built by `parse_single` in a one-element `Ok` sequence. -/
def BytesDeserializer.parse (d : BytesDeserializer) (bytes : Bytes)
    (log_namespace : LogNamespace) : Except String (List Event) :=
  Except.ok [Event.log (d.parse_single bytes log_namespace)]

/-- An event matches a schema definition when the root has the declared base
type, every declared field is present in the event, every declared field is
of byte-string type as stored, and a meaning attached to the root only occurs
on a root that actually holds a value of the declared kind. -/
def LogEvent.matchesDefinition (log : LogEvent) (d : Definition) : Prop :=
  log.value.kind = d.event_kind ∧
  ∀ f ∈ d.fields, (log.get f.1.path).isSome = true ∧ f.2.1 = Kind.bytes

/-- Whatever location the schema definition tags with the semantic meaning
`"message"` — a declared field or the event root — holds exactly the decoded
payload in the produced event. -/
def meaningAgrees (log : LogEvent) (d : Definition) (b : Bytes) : Prop :=
  (∀ f ∈ d.fields, f.2.2 = some "message" → log.get f.1.path = some b) ∧
  (d.root_meaning = some "message" → log.value = Value.bytes b)

/-- C1: for every global log schema and byte buffer `b`, the Legacy-namespace
parse yields an event whose field at the configured message-key path equals
`b` byte-for-byte; the Legacy empty-event baseline defines no fields, and the
event has no field at any other path. -/
theorem legacy_placement (ls : GlobalLogSchema) (b : Bytes) :
    ((BytesDeserializer.new ls).parse_single b LogNamespace.Legacy).get
        ls.message_key = some b ∧
    LogEvent.empty.value = Value.object [] ∧
    ∀ k : String, k ≠ ls.message_key →
      ((BytesDeserializer.new ls).parse_single b LogNamespace.Legacy).get k =
        none := by
  refine ⟨?_, rfl, fun k hk => ?_⟩
  · simp [BytesDeserializer.parse_single, BytesDeserializer.new,
      LogEvent.insert, LogEvent.empty, insertField, LogEvent.get, List.lookup]
  · have hbeq : (k == ls.message_key) = false := by simp [hk]
    simp [BytesDeserializer.parse_single, BytesDeserializer.new,
      LogEvent.insert, LogEvent.empty, insertField, LogEvent.get, List.lookup,
      hbeq]

/-- Witness for `legacy_placement` at the default schema, payload `"f"`, and
the distinct key `"other"`. -/
theorem legacy_placement_witness :
    ((BytesDeserializer.new log_schema).parse_single [102]
        LogNamespace.Legacy).get "message" = some [102] ∧
    ((BytesDeserializer.new log_schema).parse_single [102]
        LogNamespace.Legacy).get "other" = none :=
  ⟨(legacy_placement log_schema [102]).1,
   (legacy_placement log_schema [102]).2.2 "other" (by decide)⟩

/-- C2: for every global log schema and byte buffer `b`, the Modern
(`Vector`) namespace parse is exactly the namespace's own construction rule
`new_log_from_data`, and yields an event whose root value equals `b`. -/
theorem modern_placement (ls : GlobalLogSchema) (b : Bytes) :
    (BytesDeserializer.new ls).parse_single b LogNamespace.Vector =
      LogNamespace.Vector.new_log_from_data b ∧
    ((BytesDeserializer.new ls).parse_single b LogNamespace.Vector).value =
      Value.bytes b :=
  ⟨rfl, rfl⟩

/-- C3: for every byte buffer and both namespaces, `parse` succeeds with
exactly one event, and the empty payload yields an event carrying the empty
byte string — at the message key under Legacy, at the root under Modern. -/
theorem parse_total_single_event (ls : GlobalLogSchema) (b : Bytes)
    (ns : LogNamespace) :
    (∃ e, (BytesDeserializer.new ls).parse b ns = Except.ok [e]) ∧
    ((BytesDeserializer.new ls).parse_single [] LogNamespace.Legacy).get
        ls.message_key = some [] ∧
    ((BytesDeserializer.new ls).parse_single [] LogNamespace.Vector).value =
      Value.bytes [] := by
  refine ⟨⟨Event.log ((BytesDeserializer.new ls).parse_single b ns), rfl⟩,
    ?_, rfl⟩
  simp [BytesDeserializer.parse_single, BytesDeserializer.new,
    LogEvent.insert, LogEvent.empty, insertField, LogEvent.get, List.lookup]

/-- C4: `schema_definition(Legacy)` is the empty Legacy schema extended with
one byte-string field at the parsed message-key path tagged `"message"`, and
`schema_definition(Modern)` is the byte-string-root definition with the
namespace's default metadata and the root tagged `"message"`. -/
theorem schema_definition_shape (c : BytesDeserializerConfig)
    (ls : GlobalLogSchema) (p : ValuePath)
    (h : parse_value_path ls.message_key = some p) :
    c.schema_definition ls LogNamespace.Legacy =
      some (Definition.empty_legacy_namespace.with_event_field p Kind.bytes
        (some "message")) ∧
    c.schema_definition ls LogNamespace.Vector =
      some ((Definition.new_with_default_metadata Kind.bytes
        [LogNamespace.Vector]).with_meaning OwnedTargetPath.event_root
        "message") := by
  exact ⟨by simp [BytesDeserializerConfig.schema_definition, h], rfl⟩

/-- Witness for `schema_definition_shape` at the default schema. -/
theorem schema_definition_shape_witness :
    BytesDeserializerConfig.mk.schema_definition log_schema
        LogNamespace.Legacy =
      some (Definition.empty_legacy_namespace.with_event_field ⟨"message"⟩
        Kind.bytes (some "message")) :=
  (schema_definition_shape BytesDeserializerConfig.mk log_schema ⟨"message"⟩
    (by decide)).1

/-- C5: for both namespaces, whenever the configured message key parses, the
schema definition exists and the event produced by `parse_single` matches it:
the declared root kind, every declared field path and base type, and the
location tagged with meaning `"message"` holding the decoded payload. -/
theorem schema_decode_agreement (c : BytesDeserializerConfig)
    (ls : GlobalLogSchema) (b : Bytes) (ns : LogNamespace)
    (h : (parse_value_path ls.message_key).isSome = true) :
    ∃ d, c.schema_definition ls ns = some d ∧
      ((c.build ls).parse_single b ns).matchesDefinition d ∧
      meaningAgrees ((c.build ls).parse_single b ns) d b := by
  cases ns with
  | Legacy =>
      have hne : ls.message_key.isEmpty = false := by
        cases hemp : ls.message_key.isEmpty
        · rfl
        · simp [parse_value_path, hemp] at h
      refine ⟨Definition.empty_legacy_namespace.with_event_field
        ⟨ls.message_key⟩ Kind.bytes (some "message"), ?_, ?_, ?_⟩
      · simp [BytesDeserializerConfig.schema_definition, parse_value_path, hne]
      · refine ⟨rfl, ?_⟩
        intro f hf
        simp [Definition.empty_legacy_namespace, Definition.with_event_field]
          at hf
        subst hf
        simp [BytesDeserializerConfig.build, BytesDeserializer.new,
          BytesDeserializer.parse_single, LogEvent.insert, LogEvent.empty,
          insertField, LogEvent.get, List.lookup]
      · refine ⟨?_, ?_⟩
        · intro f hf _
          simp [Definition.empty_legacy_namespace, Definition.with_event_field]
            at hf
          subst hf
          simp [BytesDeserializerConfig.build, BytesDeserializer.new,
            BytesDeserializer.parse_single, LogEvent.insert, LogEvent.empty,
            insertField, LogEvent.get, List.lookup]
        · intro hroot
          simp [Definition.empty_legacy_namespace, Definition.with_event_field]
            at hroot
  | Vector =>
      refine ⟨(Definition.new_with_default_metadata Kind.bytes
        [LogNamespace.Vector]).with_meaning OwnedTargetPath.event_root
        "message", rfl, ⟨rfl, ?_⟩, ?_, fun _ => rfl⟩
      · intro f hf
        simp [Definition.new_with_default_metadata, Definition.with_meaning]
          at hf
      · intro f hf
        simp [Definition.new_with_default_metadata, Definition.with_meaning]
          at hf

/-- Witness for `schema_decode_agreement` at the default schema, payload
`"f"`, Legacy namespace. -/
theorem schema_decode_agreement_witness :
    ∃ d, BytesDeserializerConfig.mk.schema_definition log_schema
        LogNamespace.Legacy = some d ∧
      ((BytesDeserializerConfig.mk.build log_schema).parse_single [102]
        LogNamespace.Legacy).matchesDefinition d ∧
      meaningAgrees ((BytesDeserializerConfig.mk.build log_schema).parse_single
        [102] LogNamespace.Legacy) d [102] :=
  schema_decode_agreement BytesDeserializerConfig.mk log_schema [102]
    LogNamespace.Legacy (by decide)

/-- C6: the message key is resolved from the global schema at construction
and stored in the decoder; every Legacy parse inserts at that cached key, and
two decoders built from schemas with different message keys place payloads at
their respective keys independently — neither writes at the other's key. -/
theorem message_key_cached_independent (ls₁ ls₂ : GlobalLogSchema)
    (b : Bytes) :
    (BytesDeserializer.new ls₁).log_schema_message_key = ls₁.message_key ∧
    ((BytesDeserializer.new ls₁).parse_single b LogNamespace.Legacy).get
        ls₁.message_key = some b ∧
    ((BytesDeserializer.new ls₂).parse_single b LogNamespace.Legacy).get
        ls₂.message_key = some b ∧
    (ls₁.message_key ≠ ls₂.message_key →
      ((BytesDeserializer.new ls₁).parse_single b LogNamespace.Legacy).get
          ls₂.message_key = none) := by
  refine ⟨rfl, (legacy_placement ls₁ b).1, (legacy_placement ls₂ b).1,
    fun hne => ?_⟩
  exact (legacy_placement ls₁ b).2.2 ls₂.message_key (Ne.symm hne)

/-- Witness for `message_key_cached_independent` with keys `"message"` and
`"event"`. -/
theorem message_key_cached_independent_witness :
    ((BytesDeserializer.new ⟨"message"⟩).parse_single [1]
        LogNamespace.Legacy).get "event" = none :=
  (message_key_cached_independent ⟨"message"⟩ ⟨"event"⟩ [1]).2.2.2 (by decide)

/-- C7: `parse` is deterministic — its result depends only on the byte
buffer, the namespace, and the decoder's immutable cached message key: two
decoders with the same cached key give identical results on every input. -/
theorem parse_deterministic (d₁ d₂ : BytesDeserializer) (b : Bytes)
    (ns : LogNamespace)
    (h : d₁.log_schema_message_key = d₂.log_schema_message_key) :
    d₁.parse b ns = d₂.parse b ns := by
  cases d₁
  cases d₂
  cases h
  rfl

/-- Witness for `parse_deterministic` on two decoders with the key
`"message"`. -/
theorem parse_deterministic_witness :
    (BytesDeserializer.mk "message").parse [1] LogNamespace.Legacy =
      (BytesDeserializer.mk "message").parse [1] LogNamespace.Legacy :=
  parse_deterministic (BytesDeserializer.mk "message")
    (BytesDeserializer.mk "message") [1] LogNamespace.Legacy rfl

/-- C8: `output_type()` of the pass-through decoder config returns the Log
category for every config value, independently of any namespace. -/
theorem output_type_log (c : BytesDeserializerConfig) :
    c.output_type = DataType.Log :=
  rfl

/-- C9: for every byte buffer and namespace, `parse` equals `Ok` of the
one-element sequence holding exactly `parse_single`'s event wrapped into
`Event`; the contract-level parse is fully determined by `parse_single`. -/
theorem parse_refines_parse_single (d : BytesDeserializer) (b : Bytes)
    (ns : LogNamespace) :
    d.parse b ns = Except.ok [Event.log (d.parse_single b ns)] :=
  rfl

/-- C10: `schema_definition(Legacy)` hits the panic branch (modelled as
`none`) exactly when the configured message key fails to parse as a value
path; when the key parses, the panic branch is unreachable and
`schema_definition` is total for both namespaces. -/
theorem schema_definition_panic_total (c : BytesDeserializerConfig)
    (ls : GlobalLogSchema) :
    (parse_value_path ls.message_key = none →
      c.schema_definition ls LogNamespace.Legacy = none) ∧
    ((parse_value_path ls.message_key).isSome = true →
      (c.schema_definition ls LogNamespace.Legacy).isSome = true ∧
      (c.schema_definition ls LogNamespace.Vector).isSome = true) := by
  constructor
  · intro h
    simp [BytesDeserializerConfig.schema_definition, h]
  · intro h
    obtain ⟨p, hp⟩ := Option.isSome_iff_exists.mp h
    exact ⟨by simp [BytesDeserializerConfig.schema_definition, hp], rfl⟩

/-- Witness for `schema_definition_panic_total`: the empty key panics, the
default key succeeds. -/
theorem schema_definition_panic_total_witness :
    BytesDeserializerConfig.mk.schema_definition ⟨""⟩ LogNamespace.Legacy =
        none ∧
    (BytesDeserializerConfig.mk.schema_definition log_schema
        LogNamespace.Legacy).isSome = true :=
  ⟨(schema_definition_panic_total BytesDeserializerConfig.mk ⟨""⟩).1 rfl,
   ((schema_definition_panic_total BytesDeserializerConfig.mk log_schema).2
      (by decide)).1⟩

end VectorCodecs
